import Mathlib

/-!
# go-ipfs: the bitswap commands and the unixfs metadata helpers

A shallow embedding of `core/commands/bitswap.go` (the `Run` functions of the
`stat`, `wantlist`, `ledger` and `reprovide` commands) and of
`core/coreunix/metadata.go` (`AddMetadataTo`, `Metadata`).

The commands talk to objects that live in other packages: the exchange, the
reprovider, the response emitter, the peer-id decoder, the DAG service.  Each
of them is a record of functions, and every `Run` returns, next to its result,
the list of calls it made on them, in order.  Nothing is assumed about what
these objects answer.
-/

namespace GoIpfs

/-! ## Values shared by both files -/

/-- The type `cmdkit.ErrorType`. -/
inductive ErrorType
  | ErrNormal
  | ErrClient
  | ErrImplementation
  | ErrNotFound
  | ErrFatal
  deriving DecidableEq, Repr

/-- A value of Go's `error` interface.  `cmdkit.Error` is a struct compared
field by field; a value of any other dynamic type is given by the name of that
type, an identity (the address, for the pointer types `errors.New` and
`fmt.Errorf` return) and the text `Error()` returns. -/
inductive GoError
  | cmdkitError (Message : String) (Code : ErrorType)
  | other (dynType : String) (ident : Nat) (text : String)
  deriving DecidableEq, Repr

/-- The method `Error()` of an error value. -/
def GoError.Error : GoError → String
  | .cmdkitError Message _ => Message
  | .other _ _ text => text

deriving instance DecidableEq for Except

/-- The type `peer.ID`, a Go string. -/
abbrev PeerID := String

/-- The type `cid.Cid`, a struct around one string. -/
structure Cid where
  str : String
  deriving DecidableEq, Repr

/-- The type `context.Context`, by identity. -/
abbrev Context := Nat

/-- A byte slice; each element is one byte value. -/
abbrev Bytes := List Nat

/-! ## The objects `bitswap.go` talks to -/

/-- The type `KeyList` of package `commands`. -/
structure KeyList where
  Keys : List Cid
  deriving DecidableEq, Repr

/-- The type `decision.Receipt`; `Value` holds the bits of the float64 debt ratio. -/
structure Receipt where
  Peer : String
  Value : Nat
  Sent : Nat
  Recv : Nat
  Exchanged : Nat
  deriving DecidableEq, Repr

/-- The type `bitswap.Stat`. -/
structure Stat where
  ProvideBufLen : Int
  Wantlist : List Cid
  Peers : List String
  BlocksReceived : Nat
  DataReceived : Nat
  BlocksSent : Nat
  DataSent : Nat
  DupBlksReceived : Nat
  DupDataReceived : Nat
  deriving DecidableEq, Repr

/-- The methods of `*bitswap.Bitswap` the commands call. -/
structure Bitswap where
  GetWantlist : List Cid
  WantlistForPeer : PeerID → List Cid
  LedgerForPeer : PeerID → Receipt
  Stat : Except GoError Stat

/-- The field `Exchange` of the node, an interface value: a `*bitswap.Bitswap`,
or a value of another dynamic type (the nil interface included), given by the
name `%T` prints for it. -/
inductive Exchange
  | Bitswap (bs : Bitswap)
  | other (dynType : String)

/-- The field `Reprovider` of the node. -/
structure Reprovider where
  Trigger : Context → Option GoError

/-- A value handed to the response emitter. -/
inductive Value
  | KeyList (v : KeyList)
  | Stat (v : Stat)
  | Receipt (v : Receipt)
  deriving DecidableEq, Repr

/-- The interface `cmds.ResponseEmitter`: what `Emit` answers for a value. -/
structure ResponseEmitter where
  Emit : Value → Option GoError

/-- A value of the map `req.Options`, an `interface{}`. -/
inductive OptionValue
  | string (s : String)
  | bool (b : Bool)
  | int (i : Int)
  deriving DecidableEq, Repr

/-- The fields of `cmds.Request` the commands read. -/
structure Request where
  Context : Context
  Options : String → Option OptionValue
  Arguments : List String

/-- The type `ipld.Link`. -/
structure Link where
  Name : String
  Size : Nat
  Cid : Cid
  deriving DecidableEq, Repr

/-- The fields of `dag.ProtoNode` that `SetData` and `AddNodeLink` write. -/
structure ProtoNode where
  links : List Link
  data : Bytes
  deriving DecidableEq, Repr

/-- A value of the interface `ipld.Node`: a `*dag.ProtoNode`, or a node of
another dynamic type, given by the name of that type and by what its methods
`Cid` and `Size` answer. -/
inductive Node
  | ProtoNode (p : ProtoNode)
  | other (dynType : String) (cid : Cid) (size : Except GoError Nat)
  deriving DecidableEq

/-- The interface `ipld.DAGService` over a store of type `σ`: both methods
answer and leave a store behind. -/
structure DAGService (σ : Type) where
  Get : σ → Context → Cid → Except GoError Node × σ
  Add : σ → Context → Node → Option GoError × σ

/-- The fields and methods of `core.IpfsNode` the two files use; `σ` is the
type of the DAG service's store. -/
structure IpfsNode (σ : Type) where
  Identity : PeerID
  Exchange : Exchange
  Reprovider : Reprovider
  DAG : DAGService σ
  OnlineMode : Bool
  Context : Context

/-- The command environment: what `cmdenv.GetNode(env)` answers. -/
structure Environment (σ : Type) where
  GetNode : Except GoError (IpfsNode σ)

/-- Declarations `bitswap.go` uses and other files define: the package
variable `ErrNotOnline`, the helper `e.TypeErr` (it formats the dynamic types
of its two arguments, given here by their names), `peer.IDB58Decode`, and
`fmt.Sprintf` applied to a format alone. -/
structure Externals where
  ErrNotOnline : GoError
  TypeErr : String → String → GoError
  IDB58Decode : String → Except GoError PeerID
  Sprintf : String → String

/-! ## Calls and outcomes -/

/-- One call a `Run` function makes on the objects around it. -/
inductive Event
  | IDB58Decode (s : String)
  | GetWantlist
  | WantlistForPeer (p : PeerID)
  | LedgerForPeer (p : PeerID)
  | Stat
  | Trigger (ctx : Context)
  | Emit (v : Value)
  deriving DecidableEq, Repr

/-- How a `Run` function ends: it returns an error value (`none` is `nil`), or
the Go runtime panics. -/
inductive RunResult
  | returned (err : Option GoError)
  | panicked
  deriving DecidableEq, Repr

/-- The calls a `Run` function made, in order, and how it ended. -/
structure Outcome where
  events : List Event
  result : RunResult
  deriving DecidableEq, Repr

/-- The calls `pre` were made first, then those of `o`. -/
def Outcome.after (pre : List Event) (o : Outcome) : Outcome :=
  ⟨pre ++ o.events, o.result⟩

/-- The values emitted, in order. -/
def Outcome.emitted (o : Outcome) : List Value :=
  o.events.filterMap fun ev =>
    match ev with
    | .Emit v => some v
    | _ => none

/-- The function `cmds.EmitOnce`: one `Emit`, whose error it returns. -/
def EmitOnce (res : ResponseEmitter) (v : Value) : Outcome :=
  ⟨[.Emit v], .returned (res.Emit v)⟩

/-- The function `cmdkit.Errorf` applied to a code and a format alone. -/
def cmdkit.Errorf (x : Externals) (code : ErrorType) (format : String) : GoError :=
  .cmdkitError (x.Sprintf format) code

/-- The constant `peerOptionName`. -/
def peerOptionName : String := "peer"

/-- What `%T` prints for a `*bitswap.Bitswap`. -/
def bitswapTypeName : String := "*bitswap.Bitswap"

/-! ## `core/commands/bitswap.go` -/

/-- The function `showWantlistCmd.Run`. -/
def showWantlistCmd.Run {σ : Type} (x : Externals) (req : Request) (res : ResponseEmitter)
    (env : Environment σ) : Outcome :=
  match env.GetNode with
  | .error err => ⟨[], .returned (some err)⟩
  | .ok nd =>
    if !nd.OnlineMode then ⟨[], .returned (some x.ErrNotOnline)⟩
    else
      match nd.Exchange with
      | .other dynType => ⟨[], .returned (some (x.TypeErr bitswapTypeName dynType))⟩
      | .Bitswap bs =>
        match req.Options peerOptionName with
        | some (.string pstr) =>
          match x.IDB58Decode pstr with
          | .error err => ⟨[.IDB58Decode pstr], .returned (some err)⟩
          | .ok pid =>
            if pid = nd.Identity then
              (EmitOnce res (.KeyList ⟨bs.GetWantlist⟩)).after [.IDB58Decode pstr, .GetWantlist]
            else
              (EmitOnce res (.KeyList ⟨bs.WantlistForPeer pid⟩)).after
                [.IDB58Decode pstr, .WantlistForPeer pid]
        | _ => (EmitOnce res (.KeyList ⟨bs.GetWantlist⟩)).after [.GetWantlist]

/-- The function `bitswapStatCmd.Run`. -/
def bitswapStatCmd.Run {σ : Type} (x : Externals) (_req : Request) (res : ResponseEmitter)
    (env : Environment σ) : Outcome :=
  match env.GetNode with
  | .error err => ⟨[], .returned (some err)⟩
  | .ok nd =>
    if !nd.OnlineMode then
      ⟨[], .returned (some (cmdkit.Errorf x .ErrClient x.ErrNotOnline.Error))⟩
    else
      match nd.Exchange with
      | .other dynType => ⟨[], .returned (some (x.TypeErr bitswapTypeName dynType))⟩
      | .Bitswap bs =>
        match bs.Stat with
        | .error err => ⟨[.Stat], .returned (some err)⟩
        | .ok st => (EmitOnce res (.Stat st)).after [.Stat]

/-- The function `ledgerCmd.Run`. -/
def ledgerCmd.Run {σ : Type} (x : Externals) (req : Request) (res : ResponseEmitter)
    (env : Environment σ) : Outcome :=
  match env.GetNode with
  | .error err => ⟨[], .returned (some err)⟩
  | .ok nd =>
    if !nd.OnlineMode then ⟨[], .returned (some x.ErrNotOnline)⟩
    else
      match nd.Exchange with
      | .other dynType => ⟨[], .returned (some (x.TypeErr bitswapTypeName dynType))⟩
      | .Bitswap bs =>
        match req.Arguments with
        | [] => ⟨[], .panicked⟩
        | arg0 :: _ =>
          match x.IDB58Decode arg0 with
          | .error err => ⟨[.IDB58Decode arg0], .returned (some err)⟩
          | .ok partner =>
            (EmitOnce res (.Receipt (bs.LedgerForPeer partner))).after
              [.IDB58Decode arg0, .LedgerForPeer partner]

/-- The function `reprovideCmd.Run`. -/
def reprovideCmd.Run {σ : Type} (x : Externals) (req : Request) (_res : ResponseEmitter)
    (env : Environment σ) : Outcome :=
  match env.GetNode with
  | .error err => ⟨[], .returned (some err)⟩
  | .ok nd =>
    if !nd.OnlineMode then ⟨[], .returned (some x.ErrNotOnline)⟩
    else
      match nd.Reprovider.Trigger req.Context with
      | some err => ⟨[.Trigger req.Context], .returned (some err)⟩
      | none => ⟨[.Trigger req.Context], .returned none⟩

/-! ## The objects `metadata.go` talks to -/

/-- The type `ft.Metadata`. -/
structure ft.Metadata where
  MimeType : String
  Size : Nat
  deriving DecidableEq, Repr

/-- Functions of the libraries go-cid, go-unixfs and go-merkledag that
`metadata.go` calls: `cid.Decode`, the method `String` of a cid,
`ft.BytesForMetadata`, `ft.MetadataFromBytes`, the methods `Cid` and `Size` of
a `*dag.ProtoNode`, and the variable `dag.ErrNotProtobuf`. -/
structure Library where
  Decode : String → Except GoError Cid
  CidString : Cid → String
  BytesForMetadata : ft.Metadata → Except GoError Bytes
  MetadataFromBytes : Bytes → Except GoError ft.Metadata
  ProtoNodeCid : ProtoNode → Cid
  ProtoNodeSize : ProtoNode → Except GoError Nat
  ErrNotProtobuf : GoError

/-- The method `Cid` of an `ipld.Node`. -/
def Node.Cid (lib : Library) : Node → Cid
  | .ProtoNode p => lib.ProtoNodeCid p
  | .other _ cid _ => cid

/-- The method `Size` of an `ipld.Node`. -/
def Node.Size (lib : Library) : Node → Except GoError Nat
  | .ProtoNode p => lib.ProtoNodeSize p
  | .other _ _ size => size

/-- The expression `new(dag.ProtoNode)`: no links, no data. -/
def ProtoNode.new : ProtoNode :=
  ⟨[], []⟩

/-- The method `SetData` of go-merkledag: it replaces the data. -/
def ProtoNode.SetData (n : ProtoNode) (d : Bytes) : ProtoNode :=
  ⟨n.links, d⟩

/-- The method `Data` of go-merkledag. -/
def ProtoNode.Data (n : ProtoNode) : Bytes :=
  n.data

/-- The function `ipld.MakeLink`: the size and the cid of the node; it fails
when `Size` does. -/
def MakeLink (lib : Library) (n : Node) : Except GoError Link :=
  match n.Size lib with
  | .error err => .error err
  | .ok s => .ok ⟨"", s, n.Cid lib⟩

/-- The method `AddRawLink` of go-merkledag: it appends a copy of the link
under the given name. -/
def ProtoNode.AddRawLink (n : ProtoNode) (name : String) (l : Link) : ProtoNode :=
  ⟨n.links ++ [⟨name, l.Size, l.Cid⟩], n.data⟩

/-- The method `AddNodeLink` of go-merkledag: it makes a link to `that` and
appends it under the given name; the node is left as it was when `MakeLink`
fails. -/
def ProtoNode.AddNodeLink (lib : Library) (n : ProtoNode) (name : String) (that : Node) :
    Except GoError ProtoNode :=
  match MakeLink lib that with
  | .error err => .error err
  | .ok lnk => .ok (n.AddRawLink name ⟨name, lnk.Size, lnk.Cid⟩)

/-- One call on the DAG service. -/
inductive DagCall
  | Get (ctx : Context) (c : Cid)
  | Add (ctx : Context) (nd : Node)
  deriving DecidableEq

/-- The calls a function made on the DAG service, in order, the store they
left, and what the function returned. -/
structure DagOutcome (σ : Type) (α : Type) where
  calls : List DagCall
  store : σ
  ret : α

/-- The nodes handed to `DAG.Add`, in order. -/
def addedNodes (calls : List DagCall) : List Node :=
  calls.filterMap fun call =>
    match call with
    | .Add _ nd => some nd
    | .Get _ _ => none

/-! ## `core/coreunix/metadata.go` -/

/-- The function `AddMetadataTo`, run on the DAG store `s`; it returns the pair
(string, error), `none` being the nil error. -/
def AddMetadataTo {σ : Type} (lib : Library) (n : IpfsNode σ) (s : σ) (skey : String)
    (m : ft.Metadata) : DagOutcome σ (String × Option GoError) :=
  match lib.Decode skey with
  | .error err => ⟨[], s, ("", some err)⟩
  | .ok c =>
    match n.DAG.Get s n.Context c with
    | (.error err, s1) => ⟨[.Get n.Context c], s1, ("", some err)⟩
    | (.ok nd, s1) =>
      let mdnode := ProtoNode.new
      match lib.BytesForMetadata m with
      | .error err => ⟨[.Get n.Context c], s1, ("", some err)⟩
      | .ok mdata =>
        match (mdnode.SetData mdata).AddNodeLink lib "file" nd with
        | .error err => ⟨[.Get n.Context c], s1, ("", some err)⟩
        | .ok mdnode =>
          match n.DAG.Add s1 n.Context (.ProtoNode mdnode) with
          | (some err, s2) =>
            ⟨[.Get n.Context c, .Add n.Context (.ProtoNode mdnode)], s2, ("", some err)⟩
          | (none, s2) =>
            ⟨[.Get n.Context c, .Add n.Context (.ProtoNode mdnode)], s2,
              (lib.CidString (lib.ProtoNodeCid mdnode), none)⟩

/-- The function `Metadata`, run on the DAG store `s`; it returns the pair
(metadata pointer, error), `none` being nil. -/
def Metadata {σ : Type} (lib : Library) (n : IpfsNode σ) (s : σ) (skey : String) :
    DagOutcome σ (Option ft.Metadata × Option GoError) :=
  match lib.Decode skey with
  | .error err => ⟨[], s, (none, some err)⟩
  | .ok c =>
    match n.DAG.Get s n.Context c with
    | (.error err, s1) => ⟨[.Get n.Context c], s1, (none, some err)⟩
    | (.ok nd, s1) =>
      match nd with
      | .other _ _ _ => ⟨[.Get n.Context c], s1, (none, some lib.ErrNotProtobuf)⟩
      | .ProtoNode pbnd =>
        match lib.MetadataFromBytes pbnd.Data with
        | .error err => ⟨[.Get n.Context c], s1, (none, some err)⟩
        | .ok md => ⟨[.Get n.Context c], s1, (some md, none)⟩

/-! ## Sample inputs -/

/-- A peer-id decoder that knows two peers and rejects every other string. -/
def sampleDecode (s : String) : Except GoError PeerID :=
  if s = "QmSelf" then .ok "self"
  else if s = "QmOther" then .ok "other"
  else .error (.other "*errors.errorString" 2 "multihash length inconsistent")

/-- Sample externals: `ErrNotOnline` is a value `errors.New` made. -/
def sampleExternals : Externals where
  ErrNotOnline := .other "*errors.errorString" 1 "this command must be run in online mode"
  TypeErr expected actual :=
    .other "*errors.errorString" 3 ("expected type " ++ expected ++ ", got " ++ actual)
  IDB58Decode := sampleDecode
  Sprintf format := format

/-- A sample exchange: the local wantlist holds one key, the remote peer
`other` wants another, and nothing is recorded under the node's own id. -/
def sampleBitswap : Bitswap where
  GetWantlist := [⟨"QmLocalWant"⟩]
  WantlistForPeer p := if p = "other" then [⟨"QmB"⟩, ⟨"QmA"⟩] else []
  LedgerForPeer p := ⟨p, 0, 0, 0, 0⟩
  Stat := .ok ⟨0, [⟨"QmLocalWant"⟩], ["other"], 0, 0, 0, 0, 0, 0⟩

/-- A DAG service without a store: nothing is found, adding succeeds. -/
def emptyDAG : DAGService Unit where
  Get _ _ _ := (.error (.other "*errors.errorString" 4 "not found"), ())
  Add _ _ _ := (none, ())

/-- A reprovider whose trigger succeeds on context 0 and fails on any other. -/
def sampleReprovider : Reprovider where
  Trigger ctx := if ctx = 0 then none else some (.other "*errors.errorString" 5 "context canceled")

/-- A sample node with the given mode and exchange. -/
def sampleNode (online : Bool) (ex : Exchange) : IpfsNode Unit where
  Identity := "self"
  Exchange := ex
  Reprovider := sampleReprovider
  DAG := emptyDAG
  OnlineMode := online
  Context := 0

/-- An environment whose node is `sampleNode online ex`. -/
def sampleEnv (online : Bool) (ex : Exchange) : Environment Unit where
  GetNode := .ok (sampleNode online ex)

/-- An environment without a node. -/
def brokenEnv : Environment Unit where
  GetNode := .error (.other "*errors.errorString" 6 "expected env to be of type *commands.Context")

/-- A request with the given context, peer option and arguments. -/
def sampleRequest (ctx : Context) (peerOpt : Option String) (args : List String) : Request where
  Context := ctx
  Options name := if name = peerOptionName then peerOpt.map OptionValue.string else none
  Arguments := args

/-- An emitter that accepts every value. -/
def sampleEmitter : ResponseEmitter where
  Emit _ := none

/-- An emitter that is closed already. -/
def closedEmitter : ResponseEmitter where
  Emit _ := some (.other "*errors.errorString" 7 "closed emitter")

/-- A sample library: a key decodes unless it is empty, the bytes of a
metadata record are the characters of its mime type (the size is not kept),
and the cid of a node is made of the cids it links to. -/
def sampleLibrary : Library where
  Decode key := if key = "" then .error (.other "*errors.errorString" 8 "cid too short")
    else .ok ⟨key⟩
  CidString c := c.str
  BytesForMetadata m := .ok (m.MimeType.toList.map Char.toNat)
  MetadataFromBytes b := .ok ⟨String.mk (b.map Char.ofNat), 0⟩
  ProtoNodeCid p := ⟨"QmMetaOf" ++ String.join (p.links.map fun l => l.Cid.str)⟩
  ProtoNodeSize p := .ok (p.data.length + (p.links.map fun l => l.Size).sum)
  ErrNotProtobuf := .other "*errors.errorString" 9 "expected protobuf dag node"

/-- A DAG service that is a map from cid to node, kept as an association list:
`Get` looks the cid up, `Add` stores the node under its cid. -/
def mapDAG (lib : Library) : DAGService (List (Cid × Node)) where
  Get store _ c :=
    match store.lookup c with
    | some nd => (.ok nd, store)
    | none => (.error (.other "*errors.errorString" 4 "not found"), store)
  Add store _ nd := (none, (nd.Cid lib, nd) :: store)

/-- A sample node over the map DAG. -/
def sampleDagNode : IpfsNode (List (Cid × Node)) where
  Identity := "self"
  Exchange := .other "*offline.offlineExchange"
  Reprovider := sampleReprovider
  DAG := mapDAG sampleLibrary
  OnlineMode := false
  Context := 0

/-- A store that holds one raw node, a file of twelve bytes. -/
def sampleStore : List (Cid × Node) :=
  [(⟨"QmFile"⟩, .other "*dag.RawNode" ⟨"QmFile"⟩ (.ok 12))]

/-- A store that holds one node whose size cannot be computed. -/
def brokenStore : List (Cid × Node) :=
  [(⟨"QmFile"⟩, .other "*dag.RawNode" ⟨"QmFile"⟩
    (.error (.other "*errors.errorString" 10 "size unknown")))]

/-! ## The commands of `bitswap.go` -/

/-- C1: when `GetNode` succeeds and the node is not online, the wantlist,
ledger and reprovide commands each return `ErrNotOnline` and make no call at
all: no emit, no exchange method, no `Trigger`, no peer decoding.  This holds
for every request, exchange, decoder and emitter. -/
theorem offline_returns_ErrNotOnline {σ : Type} (x : Externals) (req : Request)
    (res : ResponseEmitter) (env : Environment σ) (nd : IpfsNode σ)
    (hnode : env.GetNode = .ok nd) (hoff : nd.OnlineMode = false) :
    showWantlistCmd.Run x req res env = ⟨[], .returned (some x.ErrNotOnline)⟩ ∧
    ledgerCmd.Run x req res env = ⟨[], .returned (some x.ErrNotOnline)⟩ ∧
    reprovideCmd.Run x req res env = ⟨[], .returned (some x.ErrNotOnline)⟩ := by
  simp [showWantlistCmd.Run, ledgerCmd.Run, reprovideCmd.Run, hnode, hoff]

/-- Witness of C1: an offline node with a Bitswap exchange and a request whose
peer option and argument are both malformed. -/
theorem offline_returns_ErrNotOnline_witness :
    (sampleEnv false (.Bitswap sampleBitswap)).GetNode
        = .ok (sampleNode false (.Bitswap sampleBitswap)) ∧
      (sampleNode false (.Bitswap sampleBitswap)).OnlineMode = false ∧
      (showWantlistCmd.Run sampleExternals (sampleRequest 0 (some "???") ["???"]) sampleEmitter
          (sampleEnv false (.Bitswap sampleBitswap))
          = ⟨[], .returned (some sampleExternals.ErrNotOnline)⟩ ∧
        ledgerCmd.Run sampleExternals (sampleRequest 0 (some "???") ["???"]) sampleEmitter
          (sampleEnv false (.Bitswap sampleBitswap))
          = ⟨[], .returned (some sampleExternals.ErrNotOnline)⟩ ∧
        reprovideCmd.Run sampleExternals (sampleRequest 0 (some "???") ["???"]) sampleEmitter
          (sampleEnv false (.Bitswap sampleBitswap))
          = ⟨[], .returned (some sampleExternals.ErrNotOnline)⟩) :=
  ⟨rfl, rfl, offline_returns_ErrNotOnline sampleExternals (sampleRequest 0 (some "???") ["???"])
    sampleEmitter (sampleEnv false (.Bitswap sampleBitswap))
    (sampleNode false (.Bitswap sampleBitswap)) rfl rfl⟩

/-- What the stat command returns on an offline node: the `cmdkit.Error` that
`cmdkit.Errorf` builds with the code `ErrClient`, and no call made. -/
theorem stat_offline_result {σ : Type} (x : Externals) (req : Request)
    (res : ResponseEmitter) (env : Environment σ) (nd : IpfsNode σ)
    (hnode : env.GetNode = .ok nd) (hoff : nd.OnlineMode = false) :
    bitswapStatCmd.Run x req res env
      = ⟨[], .returned (some (cmdkit.Errorf x .ErrClient x.ErrNotOnline.Error))⟩ := by
  simp [bitswapStatCmd.Run, hnode, hoff]

/-- C2 does not hold of the code: on the offline sample node, whose
`ErrNotOnline` is a value `errors.New` made, the wantlist, ledger and
reprovide commands all return that one value, and the stat command returns
another, a `cmdkit.Error` with the code `ErrClient`. -/
theorem stat_offline_error_differs :
    (showWantlistCmd.Run sampleExternals (sampleRequest 0 none []) sampleEmitter
        (sampleEnv false (.Bitswap sampleBitswap))).result
      = .returned (some sampleExternals.ErrNotOnline) ∧
    (ledgerCmd.Run sampleExternals (sampleRequest 0 none []) sampleEmitter
        (sampleEnv false (.Bitswap sampleBitswap))).result
      = .returned (some sampleExternals.ErrNotOnline) ∧
    (reprovideCmd.Run sampleExternals (sampleRequest 0 none []) sampleEmitter
        (sampleEnv false (.Bitswap sampleBitswap))).result
      = .returned (some sampleExternals.ErrNotOnline) ∧
    (bitswapStatCmd.Run sampleExternals (sampleRequest 0 none []) sampleEmitter
        (sampleEnv false (.Bitswap sampleBitswap))).result
      = .returned (some (.cmdkitError "this command must be run in online mode" .ErrClient)) ∧
    (bitswapStatCmd.Run sampleExternals (sampleRequest 0 none []) sampleEmitter
        (sampleEnv false (.Bitswap sampleBitswap))).result
      ≠ (showWantlistCmd.Run sampleExternals (sampleRequest 0 none []) sampleEmitter
        (sampleEnv false (.Bitswap sampleBitswap))).result := by
  decide

/-- C3: on an online node with a Bitswap exchange, when `peer.IDB58Decode`
fails on the peer string, the wantlist command (peer option) and the ledger
command (peer argument) return the decoder's error and make no call but the
decoding: nothing is emitted and no method of the exchange is called.  The
value returned is `ErrNotOnline` only if the decoder's error is. -/
theorem malformed_peer_returns_decode_error {σ : Type} (x : Externals)
    (reqW reqL : Request) (res : ResponseEmitter) (env : Environment σ) (nd : IpfsNode σ)
    (bs : Bitswap) (pstr : String) (rest : List String) (err : GoError)
    (hnode : env.GetNode = .ok nd) (hon : nd.OnlineMode = true)
    (hbs : nd.Exchange = .Bitswap bs)
    (hopt : reqW.Options peerOptionName = some (.string pstr))
    (harg : reqL.Arguments = pstr :: rest)
    (hdec : x.IDB58Decode pstr = .error err) :
    showWantlistCmd.Run x reqW res env = ⟨[.IDB58Decode pstr], .returned (some err)⟩ ∧
    ledgerCmd.Run x reqL res env = ⟨[.IDB58Decode pstr], .returned (some err)⟩ ∧
    (showWantlistCmd.Run x reqW res env).emitted = [] ∧
    (ledgerCmd.Run x reqL res env).emitted = [] ∧
    (err ≠ x.ErrNotOnline →
      (showWantlistCmd.Run x reqW res env).result ≠ .returned (some x.ErrNotOnline) ∧
      (ledgerCmd.Run x reqL res env).result ≠ .returned (some x.ErrNotOnline)) := by
  have hW : showWantlistCmd.Run x reqW res env
      = ⟨[.IDB58Decode pstr], .returned (some err)⟩ := by
    simp [showWantlistCmd.Run, hnode, hon, hbs, hopt, hdec]
  have hL : ledgerCmd.Run x reqL res env = ⟨[.IDB58Decode pstr], .returned (some err)⟩ := by
    simp [ledgerCmd.Run, hnode, hon, hbs, harg, hdec]
  refine ⟨hW, hL, ?_, ?_, ?_⟩
  · rw [hW]; rfl
  · rw [hL]; rfl
  · intro hne
    rw [hW, hL]
    simp [hne]

/-- Witness of C3: the online sample node and the peer string `???`. -/
theorem malformed_peer_returns_decode_error_witness :
    sampleExternals.IDB58Decode "???"
        = .error (.other "*errors.errorString" 2 "multihash length inconsistent") ∧
      showWantlistCmd.Run sampleExternals (sampleRequest 0 (some "???") []) sampleEmitter
          (sampleEnv true (.Bitswap sampleBitswap))
        = ⟨[.IDB58Decode "???"],
            .returned (some (.other "*errors.errorString" 2 "multihash length inconsistent"))⟩ ∧
      ledgerCmd.Run sampleExternals (sampleRequest 0 none ["???"]) sampleEmitter
          (sampleEnv true (.Bitswap sampleBitswap))
        = ⟨[.IDB58Decode "???"],
            .returned (some (.other "*errors.errorString" 2 "multihash length inconsistent"))⟩ :=
  have h := malformed_peer_returns_decode_error sampleExternals
    (sampleRequest 0 (some "???") []) (sampleRequest 0 none ["???"]) sampleEmitter
    (sampleEnv true (.Bitswap sampleBitswap)) (sampleNode true (.Bitswap sampleBitswap))
    sampleBitswap "???" [] (.other "*errors.errorString" 2 "multihash length inconsistent")
    rfl rfl rfl rfl rfl (by decide)
  ⟨by decide, h.1, h.2.1⟩

/-- C4: on an online node with a Bitswap exchange, the wantlist command run
with a peer option that decodes to the node's own identity and the wantlist
command run without a peer option emit the same single value, the key list
`bs.GetWantlist()`, and return what the emitter answers for it; neither calls
`WantlistForPeer`. -/
theorem own_peer_shows_local_wantlist {σ : Type} (x : Externals)
    (reqSelf reqNone : Request) (res : ResponseEmitter) (env : Environment σ)
    (nd : IpfsNode σ) (bs : Bitswap) (pstr : String)
    (hnode : env.GetNode = .ok nd) (hon : nd.OnlineMode = true)
    (hbs : nd.Exchange = .Bitswap bs)
    (hself : reqSelf.Options peerOptionName = some (.string pstr))
    (hnone : reqNone.Options peerOptionName = none)
    (hdec : x.IDB58Decode pstr = .ok nd.Identity) :
    showWantlistCmd.Run x reqSelf res env
      = ⟨[.IDB58Decode pstr, .GetWantlist, .Emit (.KeyList ⟨bs.GetWantlist⟩)],
          .returned (res.Emit (.KeyList ⟨bs.GetWantlist⟩))⟩ ∧
    showWantlistCmd.Run x reqNone res env
      = ⟨[.GetWantlist, .Emit (.KeyList ⟨bs.GetWantlist⟩)],
          .returned (res.Emit (.KeyList ⟨bs.GetWantlist⟩))⟩ ∧
    (showWantlistCmd.Run x reqSelf res env).emitted = [.KeyList ⟨bs.GetWantlist⟩] ∧
    (showWantlistCmd.Run x reqSelf res env).emitted
      = (showWantlistCmd.Run x reqNone res env).emitted ∧
    (∀ p, Event.WantlistForPeer p ∉ (showWantlistCmd.Run x reqSelf res env).events ∧
      Event.WantlistForPeer p ∉ (showWantlistCmd.Run x reqNone res env).events) := by
  have hS : showWantlistCmd.Run x reqSelf res env
      = ⟨[.IDB58Decode pstr, .GetWantlist, .Emit (.KeyList ⟨bs.GetWantlist⟩)],
          .returned (res.Emit (.KeyList ⟨bs.GetWantlist⟩))⟩ := by
    simp [showWantlistCmd.Run, hnode, hon, hbs, hself, hdec, EmitOnce, Outcome.after]
  have hN : showWantlistCmd.Run x reqNone res env
      = ⟨[.GetWantlist, .Emit (.KeyList ⟨bs.GetWantlist⟩)],
          .returned (res.Emit (.KeyList ⟨bs.GetWantlist⟩))⟩ := by
    simp [showWantlistCmd.Run, hnode, hon, hbs, hnone, EmitOnce, Outcome.after]
  refine ⟨hS, hN, ?_, ?_, ?_⟩
  · rw [hS]; rfl
  · rw [hS, hN]; rfl
  · intro p
    rw [hS, hN]
    simp

/-- Witness of C4: the online sample node, whose id `QmSelf` decodes to. -/
theorem own_peer_shows_local_wantlist_witness :
    sampleExternals.IDB58Decode "QmSelf"
        = .ok (sampleNode true (.Bitswap sampleBitswap)).Identity ∧
      (showWantlistCmd.Run sampleExternals (sampleRequest 0 (some "QmSelf") []) sampleEmitter
          (sampleEnv true (.Bitswap sampleBitswap))).emitted
        = [.KeyList ⟨[⟨"QmLocalWant"⟩]⟩] ∧
      (showWantlistCmd.Run sampleExternals (sampleRequest 0 (some "QmSelf") []) sampleEmitter
          (sampleEnv true (.Bitswap sampleBitswap))).emitted
        = (showWantlistCmd.Run sampleExternals (sampleRequest 0 none []) sampleEmitter
          (sampleEnv true (.Bitswap sampleBitswap))).emitted :=
  have h := own_peer_shows_local_wantlist sampleExternals
    (sampleRequest 0 (some "QmSelf") []) (sampleRequest 0 none []) sampleEmitter
    (sampleEnv true (.Bitswap sampleBitswap)) (sampleNode true (.Bitswap sampleBitswap))
    sampleBitswap "QmSelf" rfl rfl rfl rfl rfl (by decide)
  ⟨by decide, h.2.2.1, h.2.2.2.1⟩

/-- C5: on an online node with a Bitswap exchange, when the peer option
decodes to a peer id `pid` other than the node's identity, the wantlist
command emits exactly one value, the key list `bs.WantlistForPeer(pid)` with
the keys in the order the exchange gave them, and returns what the emitter
answers for it; `GetWantlist` is not called. -/
theorem other_peer_shows_peer_wantlist {σ : Type} (x : Externals) (req : Request)
    (res : ResponseEmitter) (env : Environment σ) (nd : IpfsNode σ) (bs : Bitswap)
    (pstr : String) (pid : PeerID)
    (hnode : env.GetNode = .ok nd) (hon : nd.OnlineMode = true)
    (hbs : nd.Exchange = .Bitswap bs)
    (hopt : req.Options peerOptionName = some (.string pstr))
    (hdec : x.IDB58Decode pstr = .ok pid) (hne : pid ≠ nd.Identity) :
    showWantlistCmd.Run x req res env
      = ⟨[.IDB58Decode pstr, .WantlistForPeer pid, .Emit (.KeyList ⟨bs.WantlistForPeer pid⟩)],
          .returned (res.Emit (.KeyList ⟨bs.WantlistForPeer pid⟩))⟩ ∧
    (showWantlistCmd.Run x req res env).emitted = [.KeyList ⟨bs.WantlistForPeer pid⟩] ∧
    Event.GetWantlist ∉ (showWantlistCmd.Run x req res env).events := by
  have hR : showWantlistCmd.Run x req res env
      = ⟨[.IDB58Decode pstr, .WantlistForPeer pid, .Emit (.KeyList ⟨bs.WantlistForPeer pid⟩)],
          .returned (res.Emit (.KeyList ⟨bs.WantlistForPeer pid⟩))⟩ := by
    simp [showWantlistCmd.Run, hnode, hon, hbs, hopt, hdec, hne, EmitOnce, Outcome.after]
  refine ⟨hR, ?_, ?_⟩
  · rw [hR]; rfl
  · rw [hR]; simp

/-- Witness of C5: the online sample node asked for the peer `QmOther`. -/
theorem other_peer_shows_peer_wantlist_witness :
    sampleExternals.IDB58Decode "QmOther" = .ok "other" ∧
      "other" ≠ (sampleNode true (.Bitswap sampleBitswap)).Identity ∧
      (showWantlistCmd.Run sampleExternals (sampleRequest 0 (some "QmOther") []) sampleEmitter
          (sampleEnv true (.Bitswap sampleBitswap))).emitted
        = [.KeyList ⟨[⟨"QmB"⟩, ⟨"QmA"⟩]⟩] :=
  ⟨by decide, by decide,
    (other_peer_shows_peer_wantlist sampleExternals (sampleRequest 0 (some "QmOther") [])
      sampleEmitter (sampleEnv true (.Bitswap sampleBitswap))
      (sampleNode true (.Bitswap sampleBitswap)) sampleBitswap "QmOther" "other"
      rfl rfl rfl rfl (by decide) (by decide)).2.1⟩

/-- C6, as stated, fails for the node's own id: the peer string `QmSelf`
decodes, the exchange records no wantlist under that id, and yet the wantlist
command emits the local wantlist, not what `WantlistForPeer` returns. -/
theorem own_peer_not_WantlistForPeer :
    sampleExternals.IDB58Decode "QmSelf" = .ok "self" ∧
      sampleBitswap.WantlistForPeer "self" = [] ∧
      (showWantlistCmd.Run sampleExternals (sampleRequest 0 (some "QmSelf") []) sampleEmitter
          (sampleEnv true (.Bitswap sampleBitswap))).emitted
        = [.KeyList ⟨[⟨"QmLocalWant"⟩]⟩] ∧
      (showWantlistCmd.Run sampleExternals (sampleRequest 0 (some "QmSelf") []) sampleEmitter
          (sampleEnv true (.Bitswap sampleBitswap))).emitted
        ≠ [.KeyList ⟨sampleBitswap.WantlistForPeer "self"⟩] := by
  decide

/-- C6, amended: on an online node with a Bitswap exchange and a peer string
that decodes to `pid`, the ledger command emits exactly `LedgerForPeer(pid)`,
and the wantlist command emits exactly `WantlistForPeer(pid)` when `pid` is
not the node's identity and the local wantlist `GetWantlist()` when it is.
Each emits one value, whatever the exchange knows of the peer, and returns
what the emitter answers for that value: no other error can come back. -/
theorem decoded_peer_never_not_found {σ : Type} (x : Externals)
    (reqW reqL : Request) (res : ResponseEmitter) (env : Environment σ) (nd : IpfsNode σ)
    (bs : Bitswap) (pstr : String) (rest : List String) (pid : PeerID)
    (hnode : env.GetNode = .ok nd) (hon : nd.OnlineMode = true)
    (hbs : nd.Exchange = .Bitswap bs)
    (hopt : reqW.Options peerOptionName = some (.string pstr))
    (harg : reqL.Arguments = pstr :: rest)
    (hdec : x.IDB58Decode pstr = .ok pid) :
    ledgerCmd.Run x reqL res env
      = ⟨[.IDB58Decode pstr, .LedgerForPeer pid, .Emit (.Receipt (bs.LedgerForPeer pid))],
          .returned (res.Emit (.Receipt (bs.LedgerForPeer pid)))⟩ ∧
    (ledgerCmd.Run x reqL res env).emitted = [.Receipt (bs.LedgerForPeer pid)] ∧
    (showWantlistCmd.Run x reqW res env).emitted
      = [.KeyList ⟨if pid = nd.Identity then bs.GetWantlist else bs.WantlistForPeer pid⟩] ∧
    (showWantlistCmd.Run x reqW res env).result
      = .returned (res.Emit
          (.KeyList ⟨if pid = nd.Identity then bs.GetWantlist else bs.WantlistForPeer pid⟩)) := by
  have hL : ledgerCmd.Run x reqL res env
      = ⟨[.IDB58Decode pstr, .LedgerForPeer pid, .Emit (.Receipt (bs.LedgerForPeer pid))],
          .returned (res.Emit (.Receipt (bs.LedgerForPeer pid)))⟩ := by
    simp [ledgerCmd.Run, hnode, hon, hbs, harg, hdec, EmitOnce, Outcome.after]
  refine ⟨hL, ?_, ?_, ?_⟩
  · rw [hL]; rfl
  · by_cases hid : pid = nd.Identity <;>
      simp [showWantlistCmd.Run, hnode, hon, hbs, hopt, hdec, hid, EmitOnce, Outcome.after,
        Outcome.emitted]
  · by_cases hid : pid = nd.Identity <;>
      simp [showWantlistCmd.Run, hnode, hon, hbs, hopt, hdec, hid, EmitOnce, Outcome.after]

/-- Witness of C6 amended: the peer `other`, of whom the ledger knows nothing,
asked of the online sample node through an emitter that is closed. -/
theorem decoded_peer_never_not_found_witness :
    sampleExternals.IDB58Decode "QmOther" = .ok "other" ∧
      (ledgerCmd.Run sampleExternals (sampleRequest 0 none ["QmOther"]) closedEmitter
          (sampleEnv true (.Bitswap sampleBitswap))).emitted
        = [.Receipt ⟨"other", 0, 0, 0, 0⟩] ∧
      (showWantlistCmd.Run sampleExternals (sampleRequest 0 (some "QmOther") []) closedEmitter
          (sampleEnv true (.Bitswap sampleBitswap))).result
        = .returned (some (.other "*errors.errorString" 7 "closed emitter")) :=
  have h := decoded_peer_never_not_found sampleExternals
    (sampleRequest 0 (some "QmOther") []) (sampleRequest 0 none ["QmOther"]) closedEmitter
    (sampleEnv true (.Bitswap sampleBitswap)) (sampleNode true (.Bitswap sampleBitswap))
    sampleBitswap "QmOther" [] "other" rfl rfl rfl rfl rfl (by decide)
  ⟨by decide, h.2.1, h.2.2.2⟩

/-- C7: when `GetNode` succeeds, the reprovide command on an online node calls
`Reprovider.Trigger` exactly once, with the context of the request, makes no
other call and returns what `Trigger` returned; it returns nil if and only if
`Trigger` did.  On an offline node it returns `ErrNotOnline` and calls
nothing. -/
theorem reprovide_returns_Trigger_result {σ : Type} (x : Externals) (req : Request)
    (res : ResponseEmitter) (env : Environment σ) (nd : IpfsNode σ)
    (hnode : env.GetNode = .ok nd) :
    reprovideCmd.Run x req res env
      = (if nd.OnlineMode = true then
          ⟨[.Trigger req.Context], .returned (nd.Reprovider.Trigger req.Context)⟩
        else ⟨[], .returned (some x.ErrNotOnline)⟩) ∧
    (nd.OnlineMode = true →
      (reprovideCmd.Run x req res env).events.count (.Trigger req.Context) = 1 ∧
      ((reprovideCmd.Run x req res env).result = .returned none
        ↔ nd.Reprovider.Trigger req.Context = none)) ∧
    (nd.OnlineMode = false →
      ∀ ctx, Event.Trigger ctx ∉ (reprovideCmd.Run x req res env).events) := by
  have hR : reprovideCmd.Run x req res env
      = (if nd.OnlineMode = true then
          ⟨[.Trigger req.Context], .returned (nd.Reprovider.Trigger req.Context)⟩
        else ⟨[], .returned (some x.ErrNotOnline)⟩) := by
    cases hmode : nd.OnlineMode
    · simp [reprovideCmd.Run, hnode, hmode]
    · cases htrig : nd.Reprovider.Trigger req.Context <;>
        simp [reprovideCmd.Run, hnode, hmode, htrig]
  refine ⟨hR, ?_, ?_⟩
  · intro hon
    rw [hR]
    simp [hon]
  · intro hoff
    rw [hR]
    simp [hoff]

/-- Witness of C7: the sample reprovider succeeds on context 0, fails on
context 1, and is not called on the offline node. -/
theorem reprovide_returns_Trigger_result_witness :
    reprovideCmd.Run sampleExternals (sampleRequest 0 none []) sampleEmitter
        (sampleEnv true (.Bitswap sampleBitswap))
      = ⟨[.Trigger 0], .returned none⟩ ∧
    reprovideCmd.Run sampleExternals (sampleRequest 1 none []) sampleEmitter
        (sampleEnv true (.Bitswap sampleBitswap))
      = ⟨[.Trigger 1], .returned (some (.other "*errors.errorString" 5 "context canceled"))⟩ ∧
    reprovideCmd.Run sampleExternals (sampleRequest 0 none []) sampleEmitter
        (sampleEnv false (.Bitswap sampleBitswap))
      = ⟨[], .returned (some sampleExternals.ErrNotOnline)⟩ :=
  ⟨(reprovide_returns_Trigger_result sampleExternals (sampleRequest 0 none []) sampleEmitter
      (sampleEnv true (.Bitswap sampleBitswap)) (sampleNode true (.Bitswap sampleBitswap)) rfl).1,
    (reprovide_returns_Trigger_result sampleExternals (sampleRequest 1 none []) sampleEmitter
      (sampleEnv true (.Bitswap sampleBitswap)) (sampleNode true (.Bitswap sampleBitswap)) rfl).1,
    (reprovide_returns_Trigger_result sampleExternals (sampleRequest 0 none []) sampleEmitter
      (sampleEnv false (.Bitswap sampleBitswap))
      (sampleNode false (.Bitswap sampleBitswap)) rfl).1⟩

/-- C10: with an exchange that is not a `*bitswap.Bitswap`, the stat, wantlist
and ledger commands on an online node each return the type error
`e.TypeErr(bs, nd.Exchange)` and make no call at all, for every request, also
one whose peer string is malformed or missing.  The checks come in the order
`GetNode` error, not online, exchange type: when `GetNode` fails its error is
returned, and on an offline node the not-online error is returned (by stat in
its `cmdkit.Error` form), not the type error. -/
theorem non_bitswap_exchange_type_error {σ : Type} (x : Externals) (req : Request)
    (res : ResponseEmitter) (env envBad : Environment σ) (nd : IpfsNode σ)
    (dynType : String) (bad : GoError)
    (hnode : env.GetNode = .ok nd) (hex : nd.Exchange = .other dynType)
    (hbad : envBad.GetNode = .error bad) :
    (bitswapStatCmd.Run x req res envBad = ⟨[], .returned (some bad)⟩ ∧
      showWantlistCmd.Run x req res envBad = ⟨[], .returned (some bad)⟩ ∧
      ledgerCmd.Run x req res envBad = ⟨[], .returned (some bad)⟩) ∧
    bitswapStatCmd.Run x req res env
      = (if nd.OnlineMode = true then
          ⟨[], .returned (some (x.TypeErr bitswapTypeName dynType))⟩
        else ⟨[], .returned (some (.cmdkitError (x.Sprintf x.ErrNotOnline.Error) .ErrClient))⟩) ∧
    showWantlistCmd.Run x req res env
      = (if nd.OnlineMode = true then
          ⟨[], .returned (some (x.TypeErr bitswapTypeName dynType))⟩
        else ⟨[], .returned (some x.ErrNotOnline)⟩) ∧
    ledgerCmd.Run x req res env
      = (if nd.OnlineMode = true then
          ⟨[], .returned (some (x.TypeErr bitswapTypeName dynType))⟩
        else ⟨[], .returned (some x.ErrNotOnline)⟩) := by
  refine ⟨⟨?_, ?_, ?_⟩, ?_, ?_, ?_⟩
  · simp [bitswapStatCmd.Run, hbad]
  · simp [showWantlistCmd.Run, hbad]
  · simp [ledgerCmd.Run, hbad]
  · cases hmode : nd.OnlineMode <;>
      simp [bitswapStatCmd.Run, cmdkit.Errorf, hnode, hex, hmode]
  · cases hmode : nd.OnlineMode <;> simp [showWantlistCmd.Run, hnode, hex, hmode]
  · cases hmode : nd.OnlineMode <;> simp [ledgerCmd.Run, hnode, hex, hmode]

/-- Witness of C10: the sample node with an offline exchange, online and
offline, asked with a malformed peer string, and the environment without a
node. -/
theorem non_bitswap_exchange_type_error_witness :
    ledgerCmd.Run sampleExternals (sampleRequest 0 (some "???") ["???"]) sampleEmitter
        (sampleEnv true (.other "*offline.offlineExchange"))
      = ⟨[], .returned (some (.other "*errors.errorString" 3
          "expected type *bitswap.Bitswap, got *offline.offlineExchange"))⟩ ∧
    showWantlistCmd.Run sampleExternals (sampleRequest 0 (some "???") ["???"]) sampleEmitter
        (sampleEnv false (.other "*offline.offlineExchange"))
      = ⟨[], .returned (some sampleExternals.ErrNotOnline)⟩ ∧
    bitswapStatCmd.Run sampleExternals (sampleRequest 0 (some "???") ["???"]) sampleEmitter
        brokenEnv
      = ⟨[], .returned (some (.other "*errors.errorString" 6
          "expected env to be of type *commands.Context"))⟩ :=
  ⟨(non_bitswap_exchange_type_error sampleExternals (sampleRequest 0 (some "???") ["???"])
      sampleEmitter (sampleEnv true (.other "*offline.offlineExchange")) brokenEnv
      (sampleNode true (.other "*offline.offlineExchange")) "*offline.offlineExchange"
      (.other "*errors.errorString" 6 "expected env to be of type *commands.Context")
      rfl rfl rfl).2.2.2,
    (non_bitswap_exchange_type_error sampleExternals (sampleRequest 0 (some "???") ["???"])
      sampleEmitter (sampleEnv false (.other "*offline.offlineExchange")) brokenEnv
      (sampleNode false (.other "*offline.offlineExchange")) "*offline.offlineExchange"
      (.other "*errors.errorString" 6 "expected env to be of type *commands.Context")
      rfl rfl rfl).2.2.1,
    (non_bitswap_exchange_type_error sampleExternals (sampleRequest 0 (some "???") ["???"])
      sampleEmitter (sampleEnv true (.other "*offline.offlineExchange")) brokenEnv
      (sampleNode true (.other "*offline.offlineExchange")) "*offline.offlineExchange"
      (.other "*errors.errorString" 6 "expected env to be of type *commands.Context")
      rfl rfl rfl).1.1⟩

/-! ## The functions of `metadata.go` -/

/-- The node `AddMetadataTo` builds from the metadata bytes and the node it
found: the data, and one link named `file` with the size and cid of that
node. -/
theorem AddNodeLink_file (lib : Library) (mdata : Bytes) (nd : Node) :
    (ProtoNode.new.SetData mdata).AddNodeLink lib "file" nd
      = match nd.Size lib with
        | .error err => .error err
        | .ok size => .ok ⟨[⟨"file", size, nd.Cid lib⟩], mdata⟩ := by
  cases hsize : nd.Size lib <;>
    simp [ProtoNode.AddNodeLink, MakeLink, ProtoNode.AddRawLink, ProtoNode.SetData,
      ProtoNode.new, hsize]

/-- The path of `AddMetadataTo` on which every step before `DAG.Add`
succeeds. -/
theorem AddMetadataTo_reaches_Add {σ : Type} (lib : Library) (n : IpfsNode σ) (s s1 : σ)
    (skey : String) (m : ft.Metadata) (c : Cid) (nd : Node) (mdata : Bytes) (size : Nat)
    (hdec : lib.Decode skey = .ok c) (hget : n.DAG.Get s n.Context c = (.ok nd, s1))
    (hbytes : lib.BytesForMetadata m = .ok mdata) (hsize : nd.Size lib = .ok size) :
    AddMetadataTo lib n s skey m
      = ⟨[.Get n.Context c, .Add n.Context (.ProtoNode ⟨[⟨"file", size, nd.Cid lib⟩], mdata⟩)],
          (n.DAG.Add s1 n.Context (.ProtoNode ⟨[⟨"file", size, nd.Cid lib⟩], mdata⟩)).2,
          match (n.DAG.Add s1 n.Context (.ProtoNode ⟨[⟨"file", size, nd.Cid lib⟩], mdata⟩)).1 with
          | some err => ("", some err)
          | none =>
            (lib.CidString (lib.ProtoNodeCid ⟨[⟨"file", size, nd.Cid lib⟩], mdata⟩), none)⟩ := by
  have hlink := AddNodeLink_file lib mdata nd
  rw [hsize] at hlink
  simp only at hlink
  unfold AddMetadataTo
  simp only [hdec, hget, hbytes, hlink]
  rcases hadd : n.DAG.Add s1 n.Context (.ProtoNode ⟨[⟨"file", size, nd.Cid lib⟩], mdata⟩)
    with ⟨_ | err, s2⟩ <;> rfl

/-- The paths of `AddMetadataTo` that end before `DAG.Add`: it returns the
empty string and the error of the step that failed, after at most the call of
`DAG.Get`. -/
theorem AddMetadataTo_fails_early {σ : Type} (lib : Library) (n : IpfsNode σ) (s : σ)
    (skey : String) (m : ft.Metadata) :
    (∀ err, lib.Decode skey = .error err →
      AddMetadataTo lib n s skey m = ⟨[], s, ("", some err)⟩) ∧
    (∀ c err s1, lib.Decode skey = .ok c → n.DAG.Get s n.Context c = (.error err, s1) →
      AddMetadataTo lib n s skey m = ⟨[.Get n.Context c], s1, ("", some err)⟩) ∧
    (∀ c nd s1 err, lib.Decode skey = .ok c → n.DAG.Get s n.Context c = (.ok nd, s1) →
      lib.BytesForMetadata m = .error err →
      AddMetadataTo lib n s skey m = ⟨[.Get n.Context c], s1, ("", some err)⟩) ∧
    (∀ c nd s1 mdata err, lib.Decode skey = .ok c →
      n.DAG.Get s n.Context c = (.ok nd, s1) → lib.BytesForMetadata m = .ok mdata →
      (ProtoNode.new.SetData mdata).AddNodeLink lib "file" nd = .error err →
      AddMetadataTo lib n s skey m = ⟨[.Get n.Context c], s1, ("", some err)⟩) := by
  refine ⟨?_, ?_, ?_, ?_⟩
  · intro err hdec
    simp [AddMetadataTo, hdec]
  · intro c err s1 hdec hget
    simp [AddMetadataTo, hdec, hget]
  · intro c nd s1 err hdec hget hbytes
    simp [AddMetadataTo, hdec, hget, hbytes]
  · intro c nd s1 mdata err hdec hget hbytes hlink
    simp [AddMetadataTo, hdec, hget, hbytes, hlink]

/-- C9: `AddMetadataTo` writes nothing on an early failure.  When
`cid.Decode`, `DAG.Get`, `BytesForMetadata` or `AddNodeLink` fails it returns
the empty string with that error, and its only call on the DAG, if any, is the
`Get`: `DAG.Add` is never called and the store is the one `Get` left, the
initial store when `Get` does not write.  Whenever the error returned is not
nil the string is empty.  On success `DAG.Add` was called exactly once, after
the `Get`, with the node whose data is `BytesForMetadata(m)` and whose only
link is named `file` and carries the size and cid of the node found under
`skey`. -/
theorem AddMetadataTo_early_failure_writes_nothing {σ : Type} (lib : Library)
    (n : IpfsNode σ) (s : σ) (skey : String) (m : ft.Metadata) :
    (∀ err, lib.Decode skey = .error err →
      AddMetadataTo lib n s skey m = ⟨[], s, ("", some err)⟩) ∧
    (∀ c err s1, lib.Decode skey = .ok c → n.DAG.Get s n.Context c = (.error err, s1) →
      AddMetadataTo lib n s skey m = ⟨[.Get n.Context c], s1, ("", some err)⟩) ∧
    (∀ c nd s1 err, lib.Decode skey = .ok c → n.DAG.Get s n.Context c = (.ok nd, s1) →
      lib.BytesForMetadata m = .error err →
      AddMetadataTo lib n s skey m = ⟨[.Get n.Context c], s1, ("", some err)⟩) ∧
    (∀ c nd s1 mdata err, lib.Decode skey = .ok c →
      n.DAG.Get s n.Context c = (.ok nd, s1) → lib.BytesForMetadata m = .ok mdata →
      (ProtoNode.new.SetData mdata).AddNodeLink lib "file" nd = .error err →
      AddMetadataTo lib n s skey m = ⟨[.Get n.Context c], s1, ("", some err)⟩) ∧
    ((∀ t ctx c, (n.DAG.Get t ctx c).2 = t) →
      addedNodes (AddMetadataTo lib n s skey m).calls = [] →
      (AddMetadataTo lib n s skey m).store = s) ∧
    ((AddMetadataTo lib n s skey m).ret.2 ≠ none →
      (AddMetadataTo lib n s skey m).ret.1 = "") ∧
    ((AddMetadataTo lib n s skey m).ret.2 = none →
      ∃ c nd s1 mdata size, lib.Decode skey = .ok c ∧
        n.DAG.Get s n.Context c = (.ok nd, s1) ∧
        lib.BytesForMetadata m = .ok mdata ∧ nd.Size lib = .ok size ∧
        (AddMetadataTo lib n s skey m).calls
          = [.Get n.Context c,
              .Add n.Context (.ProtoNode ⟨[⟨"file", size, nd.Cid lib⟩], mdata⟩)] ∧
        addedNodes (AddMetadataTo lib n s skey m).calls
          = [.ProtoNode ⟨[⟨"file", size, nd.Cid lib⟩], mdata⟩] ∧
        n.DAG.Add s1 n.Context (.ProtoNode ⟨[⟨"file", size, nd.Cid lib⟩], mdata⟩)
          = (none, (AddMetadataTo lib n s skey m).store)) := by
  obtain ⟨h1, h2, h3, h4⟩ := AddMetadataTo_fails_early lib n s skey m
  refine ⟨h1, h2, h3, h4, ?_, ?_, ?_⟩
  all_goals
    rcases hdec : lib.Decode skey with err | c
    · simp [h1 err hdec, addedNodes]
    rcases hget : n.DAG.Get s n.Context c with ⟨err | nd, s1⟩
    · have hs1 : (n.DAG.Get s n.Context c).2 = s1 := by rw [hget]
      simp [h2 c err s1 hdec hget, addedNodes]
      try (intro hread; rw [← hs1]; exact hread s n.Context c)
    have hs1 : (n.DAG.Get s n.Context c).2 = s1 := by rw [hget]
    rcases hbytes : lib.BytesForMetadata m with err | mdata
    · simp [h3 c nd s1 err hdec hget hbytes, addedNodes]
      try (intro hread; rw [← hs1]; exact hread s n.Context c)
    rcases hsize : nd.Size lib with err | size
    · have hlink := AddNodeLink_file lib mdata nd
      rw [hsize] at hlink
      simp only at hlink
      simp [h4 c nd s1 mdata err hdec hget hbytes hlink, addedNodes]
      try (intro hread; rw [← hs1]; exact hread s n.Context c)
    rw [AddMetadataTo_reaches_Add lib n s s1 skey m c nd mdata size hdec hget hbytes hsize]
    rcases hadd : n.DAG.Add s1 n.Context (.ProtoNode ⟨[⟨"file", size, nd.Cid lib⟩], mdata⟩)
      with ⟨_ | err, s2⟩ <;>
      first
      | (simp [addedNodes]; done)
      | (intro _
         refine ⟨c, nd, s1, mdata, size, ?_, ?_, ?_, ?_, ?_, ?_, ?_⟩ <;>
           first | rfl | assumption)

/-- Witness of C9: on the store whose node has no size `AddNodeLink` fails and
the store is left as it was; on the sample store the one node added is the
metadata node with its link `file`. -/
theorem AddMetadataTo_early_failure_writes_nothing_witness :
    ((AddMetadataTo sampleLibrary sampleDagNode brokenStore "QmFile" ⟨"text/plain", 0⟩).ret
        = ("", some (.other "*errors.errorString" 10 "size unknown")) ∧
      (AddMetadataTo sampleLibrary sampleDagNode brokenStore "QmFile" ⟨"text/plain", 0⟩).store
        = brokenStore) ∧
    addedNodes (AddMetadataTo sampleLibrary sampleDagNode sampleStore "QmFile"
        ⟨"text/plain", 0⟩).calls
      = [.ProtoNode ⟨[⟨"file", 12, ⟨"QmFile"⟩⟩],
          [116, 101, 120, 116, 47, 112, 108, 97, 105, 110]⟩] :=
  have h := AddMetadataTo_early_failure_writes_nothing sampleLibrary sampleDagNode brokenStore
    "QmFile" ⟨"text/plain", 0⟩
  have hfail := h.2.2.2.1 ⟨"QmFile"⟩ (.other "*dag.RawNode" ⟨"QmFile"⟩
    (.error (.other "*errors.errorString" 10 "size unknown"))) brokenStore
    [116, 101, 120, 116, 47, 112, 108, 97, 105, 110]
    (.other "*errors.errorString" 10 "size unknown") rfl rfl rfl rfl
  ⟨⟨congrArg DagOutcome.ret hfail, congrArg DagOutcome.store hfail⟩, rfl⟩

/-- In the map DAG, `Get` returns what `Add` stored. -/
theorem mapDAG_Get_after_Add (lib : Library) (t t1 : List (Cid × Node)) (ctx : Context)
    (nd : Node) (hadd : (mapDAG lib).Add t ctx nd = (none, t1)) :
    ((mapDAG lib).Get t1 ctx (nd.Cid lib)).1 = .ok nd := by
  simp only [mapDAG, Prod.mk.injEq, true_and] at hadd
  subst hadd
  simp [mapDAG, List.lookup]

/-- C8: `Metadata` undoes `AddMetadataTo`.  Let the DAG return from `Get` what
`Add` stored, let `MetadataFromBytes` invert `BytesForMetadata` on `m`, and
let `AddMetadataTo(n, skey, m)` return `(k, nil)`, leaving the store `s1`,
where `k` decodes to the cid of the node it added.  Then `Metadata(n, k)`, run
on `s1`, returns `(m, nil)`. -/
theorem Metadata_undoes_AddMetadataTo {σ : Type} (lib : Library) (n : IpfsNode σ)
    (s s1 : σ) (skey k : String) (m : ft.Metadata) (calls : List DagCall)
    (hround : ∀ b, lib.BytesForMetadata m = .ok b → lib.MetadataFromBytes b = .ok m)
    (hmap : ∀ t ctx nd t1, n.DAG.Add t ctx nd = (none, t1) →
      (n.DAG.Get t1 ctx (nd.Cid lib)).1 = .ok nd)
    (hadd : AddMetadataTo lib n s skey m = ⟨calls, s1, (k, none)⟩)
    (hkey : ∀ nd, nd ∈ addedNodes calls → lib.Decode k = .ok (nd.Cid lib)) :
    (Metadata lib n s1 k).ret = (some m, none) := by
  obtain ⟨h1, h2, h3, h4⟩ := AddMetadataTo_fails_early lib n s skey m
  rcases hdec : lib.Decode skey with err | c
  · rw [h1 err hdec] at hadd
    simp at hadd
  rcases hget : n.DAG.Get s n.Context c with ⟨err | nd, s0⟩
  · rw [h2 c err s0 hdec hget] at hadd
    simp at hadd
  rcases hbytes : lib.BytesForMetadata m with err | mdata
  · rw [h3 c nd s0 err hdec hget hbytes] at hadd
    simp at hadd
  rcases hsize : nd.Size lib with err | size
  · have hlink := AddNodeLink_file lib mdata nd
    rw [hsize] at hlink
    simp only at hlink
    rw [h4 c nd s0 mdata err hdec hget hbytes hlink] at hadd
    simp at hadd
  rw [AddMetadataTo_reaches_Add lib n s s0 skey m c nd mdata size hdec hget hbytes hsize]
    at hadd
  rcases hput : n.DAG.Add s0 n.Context (.ProtoNode ⟨[⟨"file", size, nd.Cid lib⟩], mdata⟩)
    with ⟨_ | err, s2⟩
  · rw [hput] at hadd
    simp only [DagOutcome.mk.injEq, Prod.mk.injEq, and_true] at hadd
    obtain ⟨hcalls, hstore, _⟩ := hadd
    subst hcalls hstore
    have hk := hkey (.ProtoNode ⟨[⟨"file", size, nd.Cid lib⟩], mdata⟩) (by simp [addedNodes])
    have hfound := hmap s0 n.Context _ s2 hput
    rcases hback : n.DAG.Get s2 n.Context
      (Node.Cid lib (.ProtoNode ⟨[⟨"file", size, nd.Cid lib⟩], mdata⟩)) with ⟨found, s3⟩
    rw [hback] at hfound
    simp only at hfound
    subst hfound
    simp [Metadata, hk, hback, ProtoNode.Data, hround mdata hbytes]
  · rw [hput] at hadd
    simp at hadd

/-- Witness of C8: on the sample store, a metadata record whose size is zero
is added to the file node and read back under the key returned. -/
theorem Metadata_undoes_AddMetadataTo_witness :
    (AddMetadataTo sampleLibrary sampleDagNode sampleStore "QmFile" ⟨"text/plain", 0⟩).ret
        = ("QmMetaOfQmFile", none) ∧
      (Metadata sampleLibrary sampleDagNode
          (AddMetadataTo sampleLibrary sampleDagNode sampleStore "QmFile"
            ⟨"text/plain", 0⟩).store "QmMetaOfQmFile").ret
        = (some ⟨"text/plain", 0⟩, none) :=
  ⟨rfl,
    Metadata_undoes_AddMetadataTo sampleLibrary sampleDagNode sampleStore
      (AddMetadataTo sampleLibrary sampleDagNode sampleStore "QmFile" ⟨"text/plain", 0⟩).store
      "QmFile" "QmMetaOfQmFile" ⟨"text/plain", 0⟩
      (AddMetadataTo sampleLibrary sampleDagNode sampleStore "QmFile" ⟨"text/plain", 0⟩).calls
      (by
        intro b hb
        have hb2 : b = [116, 101, 120, 116, 47, 112, 108, 97, 105, 110] :=
          (Except.ok.inj hb).symm
        subst hb2
        rfl)
      (fun t ctx nd t1 h => mapDAG_Get_after_Add sampleLibrary t t1 ctx nd h)
      rfl
      (by
        intro nd hnd
        have hnodes : addedNodes (AddMetadataTo sampleLibrary sampleDagNode sampleStore
            "QmFile" ⟨"text/plain", 0⟩).calls
            = [.ProtoNode ⟨[⟨"file", 12, ⟨"QmFile"⟩⟩],
                [116, 101, 120, 116, 47, 112, 108, 97, 105, 110]⟩] := rfl
        rw [hnodes] at hnd
        have hnd2 := List.mem_singleton.mp hnd
        subst hnd2
        rfl)⟩

end GoIpfs
